import Mathlib

/-
Shallow embedding of the rust-zexp sources (src/main.rs, src/script.rs,
src/tacle.rs, src/runner.rs) and proofs about the properties of its
command-template expansion and task-running code.

Modelling conventions:
- Rust `Vec<T>` is `List T`; `Vec::pop` removes the LAST element.
- `HashSet<String>` is a `List String` with `List.insert` (only membership
  and insertion are used by the source).
- Rust panics (`panic!`, `expect`, failed `assert_eq!`, out-of-bounds
  indexing) and `exit(-1)` are modelled as `Except.error` / `Option.none`.
- The filesystem accesses of `TACLeOptsLoader` are abstracted by an `FS`
  record holding the results `Path::is_dir` and `read_dir` would return.
-/

namespace ZExp

/-- Is a path absolute (begins with a slash, as on Unix)?  Models
`std::path::Path::is_absolute`, used only to give `rustPathJoin` the
correct absolute-argument behaviour. -/
def isAbsolutePath (p : String) : Bool :=
  match p.data with
  | [] => false
  | c :: _ => c == Char.ofNat 47

/-- Models `PathBuf::join`: joining with an absolute path replaces the
base path, otherwise the component is appended after a separator. -/
def rustPathJoin (a b : String) : String :=
  if isAbsolutePath b then b else a ++ "/" ++ b

/-- `type ArgvTerm = Vec<Vec<String>>` (src/src/script.rs:12). -/
abbrev ArgvTerm := List (List String)

/-- A registered command-term loader (`Box<dyn CmdTermLoaderTrait>`,
src/src/script.rs:93-102).  `loading_opts` is the option set the loader
declares; `loads_opts` is the result of applying the loader to the run's
fixed configuration (the configuration is immutable for the run, so only
this value is ever observed by `gen_terms`). -/
structure Loader where
  loading_opts : List String
  loads_opts : Except String ArgvTerm

/-- The `Script` state (src/src/script.rs:14-18).  `script_config` is the
key set of the parsed TOML table — `register_loader` consults it only via
`contains_key`. -/
structure Script where
  script_config : List String
  loaded_opts : List String
  loaders : List Loader

/-- The option-checking loop of `Script::register_loader`
(src/src/script.rs:25-34): for each declared option, error if it is
missing from the script file, error if it was already loaded, otherwise
insert it into `loaded_opts`.  Returns the (possibly partially extended)
`loaded_opts` together with the error, if any. -/
def registerLoop (config loaded : List String) (opts : List String) :
    List String × Option String :=
  match opts with
  | [] => (loaded, none)
  | o :: rest =>
    if o ∈ config then
      if o ∈ loaded then (loaded, some ("Option " ++ o ++ " already loaded"))
      else registerLoop config (List.insert o loaded) rest
    else (loaded, some ("Option " ++ o ++ " not found in script file"))

/-- `Script::register_loader` (src/src/script.rs:23-37).  On success the
loader is appended to `loaders`; on error the function returns early and
`loaders` is untouched (while `loaded_opts` keeps any insertions made
before the error). -/
def register_loader (s : Script) (l : Loader) : Script × Option String :=
  match registerLoop s.script_config s.loaded_opts l.loading_opts with
  | (loaded2, none) =>
    ({ s with loaded_opts := loaded2, loaders := s.loaders ++ [l] }, none)
  | (loaded2, some e) => ({ s with loaded_opts := loaded2 }, some e)

/-- `Script::gen_terms` (src/src/script.rs:79-90): ask every registered
loader in order for its argv term, stopping at the first error. -/
def gen_terms (ls : List Loader) : Except String (List ArgvTerm) :=
  match ls with
  | [] => .ok []
  | l :: rest =>
    match l.loads_opts with
    | .error e => .error e
    | .ok t =>
      match gen_terms rest with
      | .error e => .error e
      | .ok ts => .ok (t :: ts)

/-- Registration of a list of loaders in order, aborting at the first
error, exactly as the `otawa_tacle_scrpit!` macro does
(src/src/script.rs:315-328, where a registration error panics). -/
def registerAll (s : Script) (ls : List Loader) : Script × Option String :=
  match ls with
  | [] => (s, none)
  | l :: rest =>
    match register_loader s l with
    | (s2, none) => registerAll s2 rest
    | (s2, some e) => (s2, some e)

/-- The inner `existing_argv.extend(argv)` mapping of
`CommandComposition::build_all_command_to_run`: every accumulated command
is extended with the same argv, keeping its executable name. -/
def extendAll (argv : List String) (res : List (String × List String)) :
    List (String × List String) :=
  res.map (fun c => (c.1, c.2 ++ argv))

/-- One iteration of the `for argvs in &self.argv_terms[1..]` loop of
`build_all_command_to_run` (src/src/script.rs:281-296).  A single-element
term extends every accumulated command in place; otherwise the source
iterates over the term's tuples and, at each tuple, rebuilds `res` by
extending every accumulated command with that tuple (`res = new_res`
inside the loop), i.e. a left fold of `extendAll` over the tuples. -/
def applyTerm (res : List (String × List String)) (argvs : ArgvTerm) :
    List (String × List String) :=
  match argvs with
  | [a] => extendAll a res
  | _ => argvs.foldl (fun r argv => extendAll argv r) res

/-- `CommandComposition::build_all_command_to_run`
(src/src/script.rs:275-299).  The seed command is
`(argv_terms[0][0][0], [])`; the remaining terms are folded over it with
`applyTerm`.  The `none` case models the panicking triple indexing
`self.argv_terms[0][0][0]` on malformed input. -/
def build_all_command_to_run (argv_terms : List ArgvTerm) :
    Option (List (String × List String)) :=
  match argv_terms with
  | ((app :: _) :: _) :: rest => some (rest.foldl applyTerm [(app, [])])
  | _ => none

/-- Does the string contain the placeholder sigil `$` (character 36)? -/
def containsSigil (s : String) : Bool :=
  s.data.any (fun c => c == Char.ofNat 36)

/-- `Bool`-valued success test for `Except`. -/
def exceptOk {ε α : Type} : Except ε α → Bool
  | .ok _ => true
  | .error _ => false

/-- The full expansion pipeline as composed by the source: register the
loaders (the macro panics on a registration error), `gen_terms`
(`CommandComposition::from_script` unwraps it, src/src/script.rs:263),
the guard panic on more than one variable term (src/src/script.rs:268-271)
and finally `build_all_command_to_run`. -/
def scriptPipeline (s : Script) (ls : List Loader) :
    Except String (List (String × List String)) :=
  match registerAll s ls with
  | (_, some e) => .error e
  | (s2, none) =>
    match gen_terms s2.loaders with
    | .error e => .error e
    | .ok argvs =>
      if 1 < (argvs.filter (fun x => decide (1 < x.length))).length then
        .error "cannot handle multiple variable argv terms"
      else
        match build_all_command_to_run argvs with
        | none => .error "index out of bounds"
        | some cmds => .ok cmds

/-- A benchmark (src/src/tacle.rs:11-15). -/
structure Bench where
  name : String
  path : String
  entry_point : String

/-- A benchmark set (src/src/tacle.rs:17-21). -/
structure BenchSet where
  name : String
  path : String
  benchs : List Bench

/-- The parsed TACLe description (src/src/tacle.rs:23-26). -/
structure TACLe where
  root_path : String
  benchsets : List BenchSet

/-- `TACLe::gen_exec_entry_pair` (src/src/tacle.rs:96-114).  The source's
`return res;` sits INSIDE the `for benchset in &self.benchsets` loop,
after the name test, so only the FIRST benchset is ever examined: if its
name matches, its pairs are returned, otherwise the empty vector is; the
trailing `return Vec::new()` is reached only when `benchsets` is empty. -/
def TACLe.gen_exec_entry_pair (t : TACLe) (benchset_name : String) :
    List (String × String) :=
  match t.benchsets with
  | [] => []
  | bs :: _ =>
    if bs.name = benchset_name then
      bs.benchs.map (fun b =>
        (rustPathJoin (rustPathJoin t.root_path bs.path) b.path, b.entry_point))
    else []

/-- Abstraction of the filesystem consulted by
`TACLeOptsLoader::kernel_benchs_pairs`: what `Path::is_dir` answers and
what `read_dir` yields (the file names, in the order the OS returns them;
`none` models a `read_dir` error). -/
structure FS where
  isDir : String → Bool
  readDir : String → Option (List String)

/-- The part of the script configuration `TACLeOptsLoader::loads_opts`
reads: the result of `script_config["TACLE_PATH"].as_str()` (`none`
covers both a missing key — a panic in the source — and a
non-string value). -/
structure TacleConfig where
  TACLE_PATH : Option String

/-- `TACLeOptsLoader` (src/src/script.rs:190-193). -/
structure TACLeOptsLoader where
  tacle_path : String
  tacle_bench_set : String
deriving DecidableEq

/-- `TACLeOptsLoader::kernel_benchs_pairs` (src/src/script.rs:196-220):
assert the bench set is `"kernel"`, append `"/bench/kernel"` to
`tacle_path` (mutating `self`), assert the directory exists, then map
every directory entry to `(kernel_path.join(entry.path()), file_name)`.
`entry.path()` is the directory path joined with the file name. -/
def TACLeOptsLoader.kernel_benchs_pairs (self : TACLeOptsLoader) (fs : FS) :
    Except String (List (String × String) × TACLeOptsLoader) :=
  if self.tacle_bench_set = "kernel" then
    let path := self.tacle_path ++ "/bench/kernel"
    let self2 : TACLeOptsLoader := { self with tacle_path := path }
    if fs.isDir path then
      match fs.readDir path with
      | some entries =>
        .ok (entries.map (fun n => (rustPathJoin path (path ++ "/" ++ n), n)),
             self2)
      | none => .error "Error when reading kernel benchs dir"
    else .error "assertion failed: kernel_path.is_dir()"
  else .error "assertion failed: tacle_bench_set == kernel"

/-- `TACLeOptsLoader::loads_opts` (src/src/script.rs:228-252): overwrite
`self.tacle_path` with the configured `TACLE_PATH`, compute the
(executable, entry point) pairs, and emit one two-string argv per pair. -/
def TACLeOptsLoader.loads_opts (self : TACLeOptsLoader) (cfg : TacleConfig)
    (fs : FS) : Except String (ArgvTerm × TACLeOptsLoader) :=
  match cfg.TACLE_PATH with
  | some p =>
    let self2 : TACLeOptsLoader := { self with tacle_path := p }
    match self2.kernel_benchs_pairs fs with
    | .ok (pairs, self3) => .ok (pairs.map (fun pr => [pr.1, pr.2]), self3)
    | .error e => .error e
  | none =>
    .error "TACLE_PATH not found as a String liked field in script file, Aborting..."

/-- Modelled from the spec: the `Task` record
(`{name: string, executable: string, args}` of spec §3) consumed by
`run_tasks_concurrently`; its defining module is not among the provided
sources (main.rs uses `task.name`, `task.cmd`, `task.args`). -/
structure Task where
  name : String
  cmd : String
  args : List String
deriving DecidableEq

/-- `Vec::pop`: remove and return the LAST element of the vector. -/
def vecPop {α : Type} : List α → Option (α × List α)
  | [] => none
  | x :: xs =>
    match vecPop xs with
    | none => some (x, [])
    | some (y, ys) => some (y, x :: ys)

/-- The `while let Some(task) = tasks_guard.pop()` drain loop of
`run_tasks_concurrently` (src/src/main.rs:40-71), with explicit fuel
(the pop strictly shrinks the queue, so `queue.length` fuel is exact):
returns the tasks handed to `s.spawn`, in spawn order. -/
def drainSpawnFuel : Nat → List Task → List Task
  | 0, _ => []
  | fuel + 1, q =>
    match vecPop q with
    | none => []
    | some (t, q') => t :: drainSpawnFuel fuel q'

/-- The drain loop applied with enough fuel to empty the queue. -/
def drainSpawn (q : List Task) : List Task :=
  drainSpawnFuel q.length q

/-- The `for _ in 0..num_cores` loop of `run_tasks_concurrently`
(src/src/main.rs:37-73): each iteration runs a `pool.scope` whose body
drains the shared queue completely, so after the first iteration the
shared queue is empty and later iterations spawn nothing. -/
def runTasksLoop : Nat → List Task → List Task → List Task
  | 0, _, spawned => spawned
  | k + 1, queue, spawned => runTasksLoop k [] (spawned ++ drainSpawn queue)

/-- `run_tasks_concurrently` (src/src/main.rs:29-74) projected to the
sequence of tasks actually handed to workers (no clamping of
`num_cores` happens anywhere in the source). -/
def run_tasks_concurrently (tasks : List Task) (num_cores : Nat) : List Task :=
  runTasksLoop num_cores tasks []

/-- State of the shared queue and of the claims made so far, for the
interleaved model of the worker pool: `trace` lists `(worker, task)`
claims in the order the mutex granted them. -/
structure PoolState (n : Nat) where
  queue : List Task
  trace : List (Fin n × Task)

/-- One atomic `tasks.lock().unwrap(); tasks_guard.pop()` step
(src/src/main.rs:41-42) performed by worker `w`: under the mutex the pop
either takes the last queued task (claiming it for `w`) or finds the
queue empty and changes nothing. -/
def poolStep {n : Nat} (s : PoolState n) (w : Fin n) : PoolState n :=
  match vecPop s.queue with
  | none => s
  | some (t, q') => { queue := q', trace := s.trace ++ [(w, t)] }

/-- A run of the worker pool under an arbitrary interleaving `sched` of
pop steps by the `n` workers, starting from the full queue.  Because each
pop is atomic, any interleaving is a sequence of `poolStep`s. -/
def runSched {n : Nat} (tasks : List Task) (sched : List (Fin n)) : PoolState n :=
  sched.foldl poolStep { queue := tasks, trace := [] }

/-- Result of `child.wait_timeout(two_hours)` (src/src/main.rs:59):
`Some(status)` when the child exited within the timeout, `None` when the
timeout elapsed first. -/
inductive WaitResult where
  | exited : Int → WaitResult
  | timedOut : WaitResult
deriving DecidableEq

/-- Observable effect of the worker's wait/timeout handling: whether the
child was killed, and which outcome (exit code) was recorded for the
task. -/
structure WorkerEffect where
  killed : Bool
  recorded : Option Int
deriving DecidableEq

/-- The `match child.wait_timeout(two_hours).unwrap()` block
(src/src/main.rs:59-69).  On `Some(status)` the closure executes
`return;`, discarding `status` — nothing is recorded.  On `None` the
child is killed and reaped; the reaped exit code is computed and
immediately discarded (the `match` is an expression statement) — again
nothing is recorded. -/
def waitStep : WaitResult → WorkerEffect
  | .exited _ => { killed := false, recorded := none }
  | .timedOut => { killed := true, recorded := none }

/-- Result of `Command::new(&task.cmd).args(&task.args)...spawn()`
(src/src/main.rs:49-53). -/
inductive SpawnResult where
  | ok : WaitResult → SpawnResult
  | failed : SpawnResult
deriving DecidableEq

/-- The whole per-task worker closure (src/src/main.rs:44-70): a spawn
failure hits `.expect("Failed to execute command")`, i.e. the worker
panics (modelled as `Except.error` carrying the panic message); a
successful spawn proceeds to the wait/timeout handling. -/
def workerBody : SpawnResult → Except String WorkerEffect
  | .failed => .error "Failed to execute command"
  | .ok w => .ok (waitStep w)

/-! ### Helper lemmas -/

/-- If some declared option is already in `loaded`, the registration loop
ends in an error (either the duplicate-claim error at that option, or an
earlier missing-option error — never success). -/
theorem registerLoop_mem_isSome (config : List String) (opts : List String) :
    ∀ loaded o, o ∈ opts → o ∈ loaded →
      (registerLoop config loaded opts).2.isSome = true := by
  induction opts with
  | nil => intro _ _ ho _; cases ho
  | cons h rest ih =>
    intro loaded o ho hl
    simp only [registerLoop]
    by_cases hc : h ∈ config
    · simp only [if_pos hc]
      by_cases hd : h ∈ loaded
      · simp only [if_pos hd, Option.isSome_some]
      · simp only [if_neg hd]
        rcases List.mem_cons.mp ho with heq | ho'
        · exact absurd (heq ▸ hl) hd
        · exact ih (List.insert h loaded) o ho'
            (List.mem_insert_iff.mpr (Or.inr hl))
    · simp only [if_neg hc, Option.isSome_some]

theorem mem_extendAll {p : String × List String} {argv : List String}
    {res : List (String × List String)} (hp : p ∈ extendAll argv res) :
    ∃ q ∈ res, p = (q.1, q.2 ++ argv) := by
  obtain ⟨q, hq, hfq⟩ := List.mem_map.mp hp
  exact ⟨q, hq, hfq.symm⟩

/-- The single-element branch of `applyTerm` agrees with the general
fold, so `applyTerm` is always a left fold of `extendAll`. -/
theorem applyTerm_eq_foldl (res : List (String × List String)) (t : ArgvTerm) :
    applyTerm res t = t.foldl (fun r argv => extendAll argv r) res := by
  cases t with
  | nil => rfl
  | cons a t' => cases t' with
    | nil => rfl
    | cons b rest => rfl

theorem extendAll_args (Q : String → Prop) (argv : List String)
    (res : List (String × List String))
    (hres : ∀ p ∈ res, ∀ a ∈ p.2, Q a) (hargv : ∀ a ∈ argv, Q a) :
    ∀ p ∈ extendAll argv res, ∀ a ∈ p.2, Q a := by
  intro p hp a ha
  obtain ⟨q, hq, rfl⟩ := mem_extendAll hp
  rcases List.mem_append.mp ha with h | h
  · exact hres q hq a h
  · exact hargv a h

theorem foldl_tuples_args (Q : String → Prop) :
    ∀ (t : List (List String)) (res : List (String × List String)),
      (∀ p ∈ res, ∀ a ∈ p.2, Q a) → (∀ tup ∈ t, ∀ a ∈ tup, Q a) →
      ∀ p ∈ t.foldl (fun r argv => extendAll argv r) res, ∀ a ∈ p.2, Q a := by
  intro t
  induction t with
  | nil => intro res hres _ p hp; exact hres p hp
  | cons tup rest ih =>
    intro res hres ht p hp a ha
    refine ih (extendAll tup res)
      (extendAll_args Q tup res hres (ht tup (List.mem_cons_self tup rest)))
      (fun tup' h' a' ha' => ht tup' (List.mem_cons_of_mem _ h') a' ha')
      p hp a ha

theorem applyTerm_args (Q : String → Prop) (t : ArgvTerm)
    (res : List (String × List String))
    (hres : ∀ p ∈ res, ∀ a ∈ p.2, Q a) (ht : ∀ tup ∈ t, ∀ a ∈ tup, Q a) :
    ∀ p ∈ applyTerm res t, ∀ a ∈ p.2, Q a := by
  rw [applyTerm_eq_foldl]
  exact foldl_tuples_args Q t res hres ht

theorem foldl_terms_args (Q : String → Prop) :
    ∀ (ts : List ArgvTerm) (res : List (String × List String)),
      (∀ p ∈ res, ∀ a ∈ p.2, Q a) →
      (∀ t ∈ ts, ∀ tup ∈ t, ∀ a ∈ tup, Q a) →
      ∀ p ∈ ts.foldl applyTerm res, ∀ a ∈ p.2, Q a := by
  intro ts
  induction ts with
  | nil => intro res hres _ p hp; exact hres p hp
  | cons t rest ih =>
    intro res hres hts p hp a ha
    refine ih (applyTerm res t)
      (applyTerm_args Q t res hres (hts t (List.mem_cons_self t rest)))
      (fun t' h' => hts t' (List.mem_cons_of_mem _ h'))
      p hp a ha

theorem vecPop_eq_none {α : Type} {l : List α} (h : vecPop l = none) :
    l = [] := by
  cases l with
  | nil => rfl
  | cons x xs =>
    exfalso
    cases hx : vecPop xs <;> simp [vecPop, hx] at h

theorem vecPop_some_eq {α : Type} (l : List α) :
    ∀ {t : α} {l' : List α}, vecPop l = some (t, l') → l = l' ++ [t] := by
  induction l with
  | nil => intro t l' h; simp [vecPop] at h
  | cons x xs ih =>
    intro t l' h
    simp only [vecPop] at h
    cases hx : vecPop xs with
    | none =>
      rw [hx] at h
      simp only [Option.some.injEq, Prod.mk.injEq] at h
      obtain ⟨rfl, rfl⟩ := h
      have hxs : xs = [] := vecPop_eq_none hx
      simp [hxs]
    | some p =>
      obtain ⟨y, ys⟩ := p
      rw [hx] at h
      simp only [Option.some.injEq, Prod.mk.injEq] at h
      obtain ⟨rfl, rfl⟩ := h
      have := ih hx
      simp [this]

theorem drainSpawnFuel_complete :
    ∀ (fuel : Nat) (q : List Task), q.length ≤ fuel →
      drainSpawnFuel fuel q = q.reverse := by
  intro fuel
  induction fuel with
  | zero =>
    intro q hq
    have : q = [] := List.length_eq_zero.mp (Nat.le_zero.mp hq)
    subst this; rfl
  | succ k ih =>
    intro q hq
    simp only [drainSpawnFuel]
    cases hv : vecPop q with
    | none =>
      have : q = [] := vecPop_eq_none hv
      subst this; rfl
    | some p =>
      obtain ⟨t, q'⟩ := p
      have hq' : q = q' ++ [t] := vecPop_some_eq q hv
      have hlen : q'.length ≤ k := by
        rw [hq'] at hq; simp [List.length_append] at hq; omega
      show t :: drainSpawnFuel k q' = q.reverse
      rw [ih q' hlen, hq']
      simp

theorem drainSpawn_eq_reverse (q : List Task) : drainSpawn q = q.reverse :=
  drainSpawnFuel_complete q.length q (Nat.le_refl _)

theorem runTasksLoop_nil : ∀ (k : Nat) (sp : List Task),
    runTasksLoop k [] sp = sp := by
  intro k
  induction k with
  | zero => intro sp; rfl
  | succ k ih =>
    intro sp
    simp only [runTasksLoop]
    rw [show drainSpawn [] = [] from rfl]
    simpa using ih sp

/-- Invariant of the interleaved pool model: the queue plus the reversed
claimed-task trace is always exactly the original task list. -/
theorem runSched_inv {n : Nat} (tasks : List Task) (sched : List (Fin n)) :
    (runSched tasks sched).queue ++
      ((runSched tasks sched).trace.map Prod.snd).reverse = tasks := by
  suffices h : ∀ (sched : List (Fin n)) (s : PoolState n),
      (sched.foldl poolStep s).queue ++
        ((sched.foldl poolStep s).trace.map Prod.snd).reverse =
      s.queue ++ (s.trace.map Prod.snd).reverse by
    simpa [runSched] using h sched { queue := tasks, trace := [] }
  intro sched
  induction sched with
  | nil => intro s; rfl
  | cons w rest ih =>
    intro s
    rw [List.foldl_cons, ih (poolStep s w)]
    simp only [poolStep]
    cases hq : vecPop s.queue with
    | none => rfl
    | some p =>
      obtain ⟨t, q'⟩ := p
      have hsq : s.queue = q' ++ [t] := vecPop_some_eq s.queue hq
      rw [hsq]
      simp [List.reverse_append]

/-- `kernel_benchs_pairs` never changes `tacle_bench_set`. -/
theorem kernel_benchs_pairs_bench_set (a : TACLeOptsLoader) (fs : FS)
    {pairs : List (String × String)} {s2 : TACLeOptsLoader}
    (h : a.kernel_benchs_pairs fs = .ok (pairs, s2)) :
    s2.tacle_bench_set = a.tacle_bench_set := by
  unfold TACLeOptsLoader.kernel_benchs_pairs at h
  by_cases h1 : a.tacle_bench_set = "kernel"
  · rw [if_pos h1] at h
    by_cases h2 : fs.isDir (a.tacle_path ++ "/bench/kernel") = true
    · rw [if_pos h2] at h
      cases hrd : fs.readDir (a.tacle_path ++ "/bench/kernel") with
      | none => rw [hrd] at h; cases h
      | some entries =>
        rw [hrd] at h
        simp only [Except.ok.injEq, Prod.mk.injEq] at h
        obtain ⟨-, rfl⟩ := h
        rfl
    · rw [if_neg h2] at h; cases h
  · rw [if_neg h1] at h; cases h

/-- `loads_opts` overwrites `tacle_path` before using it, so its result
depends on the incoming state only through `tacle_bench_set`. -/
theorem loads_opts_state_irrel (a b : TACLeOptsLoader) (cfg : TacleConfig)
    (fs : FS) (hb : a.tacle_bench_set = b.tacle_bench_set) :
    a.loads_opts cfg fs = b.loads_opts cfg fs := by
  rcases hcp : cfg.TACLE_PATH with _ | p
  · simp only [TACLeOptsLoader.loads_opts, hcp]
  · have hab : ({ a with tacle_path := p } : TACLeOptsLoader) =
        { b with tacle_path := p } := by
      cases a; cases b
      simp_all
    simp only [TACLeOptsLoader.loads_opts, hcp, hab]

/-! ### Claim theorems -/

/-- Claim C1 (code bug): with one scalar term and one multi-valued term of
3 correlated tuples, `build_all_command_to_run` yields a SINGLE task whose
arguments are all three tuples concatenated — not the 3 tasks (one per
tuple) the claim requires.  The source rebuilds `res` inside the per-tuple
loop (`res = new_res` at src/src/script.rs:294), so every tuple is appended
to every accumulated command instead of multiplying the commands. -/
theorem build_all_collapses_tuples :
    build_all_command_to_run [[["app"]], [["a", "x"], ["b", "y"], ["c", "z"]]] =
      some [("app", ["a", "x", "b", "y", "c", "z"])] := rfl

/-- Claim C2: if a loader declares an option already claimed by a
previously registered loader, `register_loader` returns an error and the
whole expansion pipeline (which aborts at a registration error, before
anything could run) produces no task list. -/
theorem register_loader_overlap_fails (s : Script) (l : Loader)
    (ls : List Loader) (o : String)
    (ho : o ∈ l.loading_opts) (hl : o ∈ s.loaded_opts) :
    ((register_loader s l).2).isSome = true ∧
      exceptOk (scriptPipeline s (l :: ls)) = false := by
  have hs : (registerLoop s.script_config s.loaded_opts l.loading_opts).2.isSome
      = true :=
    registerLoop_mem_isSome s.script_config l.loading_opts s.loaded_opts o ho hl
  have h2 : ((register_loader s l).2).isSome = true := by
    rcases hres : registerLoop s.script_config s.loaded_opts l.loading_opts with
      ⟨loaded2, err⟩
    rw [hres] at hs
    cases err with
    | none => simp at hs
    | some e => simp [register_loader, hres]
  refine ⟨h2, ?_⟩
  obtain ⟨e, he⟩ := Option.isSome_iff_exists.mp h2
  have hpair : register_loader s l = ((register_loader s l).1, some e) := by
    rw [← he]
  unfold scriptPipeline registerAll
  rw [hpair]
  rfl

/-- Witness for C2 at a concrete overlap: both the state and the new
loader claim option `x`. -/
theorem register_loader_overlap_fails_witness :
    ((register_loader { script_config := ["x"], loaded_opts := ["x"], loaders := [] }
        { loading_opts := ["x"], loads_opts := Except.ok [] }).2).isSome = true ∧
      exceptOk (scriptPipeline
        { script_config := ["x"], loaded_opts := ["x"], loaders := [] }
        [{ loading_opts := ["x"], loads_opts := Except.ok [] }]) = false :=
  register_loader_overlap_fails _ _ [] "x" (by decide) (by decide)

/-- Counterexample to claim C3: a loader term carrying the unresolved
placeholder `$entry` flows verbatim into the produced task and expansion
still succeeds — there is no completeness check and no `IncompleteTask`
error anywhere in the source. -/
theorem build_all_no_sigil_check :
    build_all_command_to_run [[["app"]], [["$entry"]]] =
      some [("app", ["$entry"])] ∧ containsSigil "$entry" = true :=
  ⟨rfl, rfl⟩

/-- Claim C3 as amended: expansion never checks completeness nor returns
an error for it; every argument string of every produced task is taken
verbatim from some tuple of some input term (so sigils propagate
unchanged rather than being rejected, dropped or truncated). -/
theorem build_all_args_verbatim (ts : List ArgvTerm)
    (r : List (String × List String)) (p : String × List String) (a : String)
    (h : build_all_command_to_run ts = some r) (hp : p ∈ r) (ha : a ∈ p.2) :
    ∃ t ∈ ts, ∃ tup ∈ t, a ∈ tup := by
  cases ts with
  | nil => simp [build_all_command_to_run] at h
  | cons t0 rest =>
    cases t0 with
    | nil => simp [build_all_command_to_run] at h
    | cons a0 t0rest =>
      cases a0 with
      | nil => simp [build_all_command_to_run] at h
      | cons app w =>
        simp only [build_all_command_to_run, Option.some.injEq] at h
        subst h
        refine foldl_terms_args
          (fun str => ∃ t ∈ (((app :: w) :: t0rest) :: rest), ∃ tup ∈ t, str ∈ tup)
          rest [(app, [])] ?_ ?_ p hp a ha
        · intro p' hp' a' ha'
          rcases List.mem_singleton.mp hp' with rfl
          exact absurd ha' (List.not_mem_nil a')
        · intro t ht tup htup a' ha'
          exact ⟨t, List.mem_cons_of_mem _ ht, tup, htup, ha'⟩

/-- Witness for the amended C3 at a concrete expansion. -/
theorem build_all_args_verbatim_witness :
    ∃ t ∈ ([[["app"]], [["x"]]] : List ArgvTerm), ∃ tup ∈ t, "x" ∈ tup :=
  build_all_args_verbatim [[["app"]], [["x"]]] [("app", ["x"])]
    ("app", ["x"]) "x" rfl (by simp) (by simp)

/-- Counterexample to claim C4 as stated (quantifying over every run,
worker count included): a run with 0 workers — the user may pass `-j 0`,
and the `for _ in 0..num_cores` driving loop then runs zero times — leaves
the single queued task unclaimed and unexecuted. -/
theorem run_zero_workers_unexecuted :
    run_tasks_concurrently [⟨"t3", "c", []⟩] 0 = [] := rfl

/-- Claim C4 as amended: for any number of workers and any interleaving of
their atomic queue pops that drains the queue (which the source's
`while let Some(task) = pop()` loops guarantee whenever at least one
worker iteration runs), the claimed-task trace is exactly the reversal of
the queue: every queued task is claimed by exactly one worker, none twice,
none lost. -/
theorem runSched_exactly_once {n : Nat} (tasks : List Task)
    (sched : List (Fin n)) (hdone : (runSched tasks sched).queue = []) :
    (runSched tasks sched).trace.map Prod.snd = tasks.reverse := by
  have h := runSched_inv tasks sched
  rw [hdone, List.nil_append] at h
  have h2 := congrArg List.reverse h
  rwa [List.reverse_reverse] at h2

/-- Witness for the amended C4: one worker, two tasks, a draining
schedule. -/
theorem runSched_exactly_once_witness :
    (runSched [⟨"t1", "a", []⟩, ⟨"t2", "b", []⟩]
        ([0, 0] : List (Fin 1))).trace.map Prod.snd =
      ([⟨"t1", "a", []⟩, ⟨"t2", "b", []⟩] : List Task).reverse :=
  runSched_exactly_once _ _ (by decide)

/-- Counterexample to claim C5: a task whose child exits (status 0) before
the timeout has NO outcome recorded — the worker closure executes
`return;`, discarding the exit status (src/src/main.rs:60-62). -/
theorem waitStep_discards_status :
    ¬ (waitStep (WaitResult.exited 0)).recorded = some 0 := by decide

/-- Claim C5 as amended: on exit before the timeout the worker returns
without killing the child and records nothing; on timeout the child is
forcibly killed (and reaped), and again no outcome is recorded — the
reaped exit code is computed and discarded.  (The partial output up to
termination stays in the `<name>.out` sink because the redirection is set
up before the spawn; that part is operating-system behaviour outside this
embedding.) -/
theorem waitStep_records_nothing :
    ∀ s : Int,
      (waitStep (WaitResult.exited s)).recorded = none ∧
      (waitStep (WaitResult.exited s)).killed = false ∧
      (waitStep WaitResult.timedOut).recorded = none ∧
      (waitStep WaitResult.timedOut).killed = true :=
  fun _ => ⟨rfl, rfl, rfl, rfl⟩

/-- Counterexample to claim C6: a task whose executable cannot be spawned
does not get a task-scoped recorded failure — the worker closure hits
`.expect("Failed to execute command")` and panics (src/src/main.rs:54),
so the failure is not confined to that task's outcome. -/
theorem workerBody_spawn_failure_cex :
    workerBody SpawnResult.failed = Except.error "Failed to execute command" := rfl

/-- Claim C6 as amended: a spawn failure makes the worker closure panic
(no per-task outcome is recorded and the run ultimately aborts with that
panic once the scope completes), while tasks whose spawn succeeds complete
their worker body normally. -/
theorem workerBody_spawn_failure_behaviour :
    exceptOk (workerBody SpawnResult.failed) = false ∧
      ∀ w, exceptOk (workerBody (SpawnResult.ok w)) = true :=
  ⟨rfl, fun _ => rfl⟩

/-- Counterexample to claim C7: nothing clamps the worker count to ≥ 1 —
with a user-supplied worker count of 0 the driving loop runs zero times
and NO queued task is executed. -/
theorem run_tasks_zero_cores_no_clamp :
    run_tasks_concurrently [⟨"a", "x", []⟩, ⟨"b", "y", []⟩] 0 = [] := rfl

/-- Claim C7 as amended: the worker count is passed through unclamped;
with 0 workers no task is executed, and with any positive worker count
every queued task is executed (the first pool iteration drains the whole
queue, in LIFO order). -/
theorem run_tasks_concurrently_unclamped :
    ∀ (tasks : List Task) (n : Nat),
      run_tasks_concurrently tasks n = if n = 0 then [] else tasks.reverse := by
  intro tasks n
  cases n with
  | zero => rfl
  | succ k =>
    rw [if_neg (Nat.succ_ne_zero k)]
    show runTasksLoop (k + 1) tasks [] = tasks.reverse
    simp only [runTasksLoop]
    rw [runTasksLoop_nil, List.nil_append, drainSpawn_eq_reverse]

/-- Claim C8: `TACLeOptsLoader::loads_opts` overwrites `self.tacle_path`
from the configuration before using it, so calling it a second time (from
the state the first call left behind) on the same configuration and the
same directory contents returns exactly the same `ArgvTerm` and state:
expansion is idempotent. -/
theorem tacle_loads_opts_idempotent (self s' : TACLeOptsLoader)
    (cfg : TacleConfig) (fs : FS) (t : ArgvTerm)
    (h : self.loads_opts cfg fs = .ok (t, s')) :
    TACLeOptsLoader.loads_opts s' cfg fs = .ok (t, s') := by
  have hbs : s'.tacle_bench_set = self.tacle_bench_set := by
    rcases hcp : cfg.TACLE_PATH with _ | p
    · simp [TACLeOptsLoader.loads_opts, hcp] at h
    · simp only [TACLeOptsLoader.loads_opts, hcp] at h
      cases hk : TACLeOptsLoader.kernel_benchs_pairs
          { self with tacle_path := p } fs with
      | error e => rw [hk] at h; cases h
      | ok pr =>
        obtain ⟨pairs, s3⟩ := pr
        rw [hk] at h
        simp only [Except.ok.injEq, Prod.mk.injEq] at h
        obtain ⟨-, rfl⟩ := h
        exact kernel_benchs_pairs_bench_set
          { self with tacle_path := p } fs hk
  rw [loads_opts_state_irrel s' self cfg fs hbs]
  exact h

/-- Witness for C8: a concrete configuration and directory listing; the
second call reproduces the first call's result. -/
theorem tacle_loads_opts_idempotent_witness :
    TACLeOptsLoader.loads_opts
      { tacle_path := "/t/bench/kernel", tacle_bench_set := "kernel" }
      { TACLE_PATH := some "/t" }
      { isDir := fun _ => true, readDir := fun _ => some ["b1"] } =
      .ok ([["/t/bench/kernel/b1", "b1"]],
        { tacle_path := "/t/bench/kernel", tacle_bench_set := "kernel" }) :=
  tacle_loads_opts_idempotent
    { tacle_path := "", tacle_bench_set := "kernel" } _ _ _ _ (by rfl)

/-- Claim C9 (code bug): `gen_exec_entry_pair` only ever examines the
FIRST benchset — the source's `return res;` sits inside the `for` loop
(src/src/tacle.rs:111) — so querying a benchset that is second in the
list returns the empty vector instead of its (executable, entry point)
pairs (the claim expects `[("/r/ap/bp", "main")]` here). -/
theorem gen_exec_entry_pair_nonfirst_dropped :
    TACLe.gen_exec_entry_pair
      { root_path := "/r",
        benchsets :=
          [{ name := "kernel", path := "kp", benchs := [] },
           { name := "app", path := "ap",
             benchs := [{ name := "b", path := "bp", entry_point := "main" }] }] }
      "app" = [] := rfl

/-- Claim C10: whenever `register_loader` returns an error, the script's
loader list is unchanged — the failing loader is never appended (only
`loaded_opts` may have been partially extended). -/
theorem register_loader_error_keeps_loaders (s : Script) (l : Loader)
    (e : String) (h : (register_loader s l).2 = some e) :
    (register_loader s l).1.loaders = s.loaders := by
  rcases hres : registerLoop s.script_config s.loaded_opts l.loading_opts with
    ⟨loaded2, err⟩
  cases err with
  | none => simp [register_loader, hres] at h
  | some e2 => simp [register_loader, hres]

/-- Witness for C10 at a concrete failing registration (option missing
from the script file). -/
theorem register_loader_error_keeps_loaders_witness :
    (register_loader { script_config := [], loaded_opts := [], loaders := [] }
      { loading_opts := ["y"], loads_opts := Except.ok [] }).1.loaders = [] :=
  register_loader_error_keeps_loaders _ _
    "Option y not found in script file" (by decide)

end ZExp
